import Mathlib

/-!
Verification of the AzureJay agent core: a shallow embedding, in Lean 4, of
the agent execution loop (`src/agent/afm_executor.py`), the tool dispatch and
handlers (`src/agent/tools.py`), and the grammar-analysis stage
(`src/agent/language_tool.py`, `src/agent/grammar_pipe.py`), together with
theorems settling the frozen specification claims.

External effects (the reasoning-model calls, the structured-extraction model,
the proofreading HTTP service, the relational database and the Redis cache)
are modelled as explicit inputs: oracles for model output, a response value
for the proofreading service, and explicit state records for the database.
Machine strings are Lean `String`s; the Python string operations used by the
source (`in`, `split`, `strip`, `startswith`) are re-implemented below with
Python semantics so that every definition is executable by the kernel.
-/

namespace AzureJay

/-! ### Python string primitives

The source manipulates model output with `in`, `str.split`, `str.strip`.
These helpers reproduce those operations (for nonempty separators, which is
the only way the source uses them). -/

/-- Membership test `pat in s` of Python: `pat` occurs as a contiguous
substring of `s`. -/
def pyIn (pat s : String) : Bool := decide (pat.toList <:+: s.toList)

/-- Worker for `pySplit`: scans left to right; whenever `sep` is a prefix of
the remaining input, cuts there and continues after `sep`. The fuel argument
makes the recursion structural; it is always called with fuel equal to the
length of the input, which is sufficient since every step consumes at least
one character. -/
def pySplitAux (sep : List Char) : Nat → List Char → List Char → List (List Char)
  | _, [], acc => [acc.reverse]
  | 0, s, acc => [acc.reverse ++ s]
  | fuel+1, c :: rest, acc =>
    if sep.isPrefixOf (c :: rest) then
      acc.reverse :: pySplitAux sep fuel (rest.drop (sep.length - 1)) []
    else
      pySplitAux sep fuel rest (c :: acc)

/-- Python `s.split(sep)` for a nonempty separator: splits at every
non-overlapping occurrence of `sep`, scanning left to right. -/
def pySplit (s sep : String) : List String :=
  (pySplitAux sep.toList s.toList.length s.toList []).map List.asString

/-- Python `s.strip()` on a character list: removes leading and trailing
whitespace. -/
def pyStripL (s : List Char) : List Char :=
  ((s.dropWhile Char.isWhitespace).reverse.dropWhile Char.isWhitespace).reverse

/-- Python `s.strip()`. -/
def pyStrip (s : String) : String := (pyStripL s.toList).asString

/-- Python `s.startswith(pat)`. -/
def pyStartsWith (pat s : String) : Bool := pat.toList.isPrefixOf s.toList

/-- Element `i` of a list of strings, defaulting to `""`. The source indexes
the result of `split` only under guards that guarantee the index exists, so
the default is never observable. -/
def pyGetStr (l : List String) (i : Nat) : String := l.getD i ""

/-- The idiom `s.split(openTag)[1].split(closeTag)[0]` used by
`run_afm_cycle` to cut the text delimited by a tag pair out of a model
response: everything after the first `openTag` and before the next
`closeTag` (everything after `openTag` when no `closeTag` follows). -/
def pyExtractTag (s openTag closeTag : String) : String :=
  pyGetStr (pySplit (pyGetStr (pySplit s openTag) 1) closeTag) 0

/-! ### Tool dispatch (`src/agent/tools.py`, `execute_tool` and `TOOL_MAP`)

The three handlers registered in `TOOL_MAP` are side-effecting (database,
Redis, web search); at the loop level their results are an oracle
`handlers`. The handlers themselves are embedded as pure state transformers
further below for the handler-level claims. -/

/-- Extracted tool parameters after `model_dump()`: a keyed record of
string-rendered fields. The capability handles (`store`, `db_session`)
injected by the loop are modelled as opaque string tokens, since no embedded
decision depends on their value. -/
abbrev ToolParams := List (String × String)

/-- Python dict assignment `d[k] = v`: overwrite the binding of `k`. -/
def dictSet (d : ToolParams) (k v : String) : ToolParams :=
  (List.filter (fun p => ¬ p.1 = k) d) ++ [(k, v)]

/-- Keys of `TOOL_MAP` in `tools.py`. -/
def TOOL_MAP_keys : List String :=
  ["WebSearch", "UpdateUserProfile", "SaveGrammarCorrection"]

/-- Entry point `execute_tool(tool_name, tool_params)` of `tools.py`:
dispatches to the mapped handler when `tool_name` is a key of `TOOL_MAP`,
otherwise reports the tool as not recognized. `handlers` abstracts the
side-effecting registered handlers. -/
def execute_tool (handlers : String → ToolParams → String)
    (tool_name : String) (tool_params : ToolParams) : String :=
  if tool_name ∈ TOOL_MAP_keys then handlers tool_name tool_params
  else "Error: Tool \x27" ++ tool_name ++ "\x27 is not recognized."

/-! ### The agent loop (`src/agent/afm_executor.py`, `run_afm_cycle`) -/

/-- Outcome of the structured-extraction attempt plus tool execution inside
the `try` block of one loop iteration: the extractor model either produced a
schema-valid parameter object, raised a pydantic `ValidationError`, or some
other exception escaped the block. -/
inductive ExtractResult where
  | ok (params : ToolParams)
  | validationError (msg : String)
  | otherError (msg : String)
deriving DecidableEq

/-- External collaborators consulted by one loop iteration: the structured
extractor (per tool name and raw invocation text) and the registered tool
handlers. -/
structure AfmEnv where
  extract : String → String → ExtractResult
  handlers : String → ToolParams → String

/-- Per-invocation context injected into every tool call by
`run_afm_cycle`. -/
structure AfmCtx where
  user_id : String
  conversation_id : String

/-- Python dict updates `tool_params[...] = ...` performed by the loop
before dispatch: caller identity, capability handles, conversation
identity. -/
def augmentParams (ctx : AfmCtx) (p : ToolParams) : ToolParams :=
  dictSet (dictSet (dictSet (dictSet p "user_id" ctx.user_id)
    "store" "<store>") "db_session" "<db_session>") "conversation_id" ctx.conversation_id

/-- Substring identification of the tool named inside a `<tool_call>` body:
the `if / elif / elif / else` chain of `run_afm_cycle`, in its fixed
priority order. -/
def classifyTool (inner : String) : Option String :=
  if pyIn "WebSearch" inner then some "WebSearch"
  else if pyIn "UpdateUserProfile" inner then some "UpdateUserProfile"
  else if pyIn "SaveGrammarCorrection" inner then some "SaveGrammarCorrection"
  else none

/-- The trimmed inner text of the first `<tool_call>` section of a model
response, as computed by `run_afm_cycle`. -/
def toolCallInner (rc : String) : String :=
  pyStrip (pyExtractTag rc "<tool_call>" "</tool_call>")

/-- What one loop iteration does with one model response: return through the
final-answer branch, append an observation and continue, or return the raw
response through the permissive fallback branch. -/
inductive StepAction where
  | finalReturn (s : String)
  | observe (obs : String)
  | rawReturn (s : String)
deriving DecidableEq

/-- The observation wrapper `f"<observation>\n{...}\n</observation>"`. -/
def obsWrap (s : String) : String := "<observation>\n" ++ s ++ "\n</observation>"

/-- The `<tool_call>` branch and the permissive fallback of one
`run_afm_cycle` iteration: classifies the tool by substring, drives
extraction and dispatch, and converts a `ValidationError` or any other
exception escaping the `try` block into an observation. The
`raise ValueError` for an unrecognized tool is caught by the iteration's
own `except Exception` handler, hence the
`"Error executing tool: Tool not recognized in: ..."` observation. When no
`<tool_call>` delimiter is present either, the raw content is returned
stripped. -/
def toolOrFallback (env : AfmEnv) (ctx : AfmCtx) (rc : String) : StepAction :=
  if pyIn "<tool_call>" rc then
    let inner := toolCallInner rc
    match classifyTool inner with
    | none => .observe (obsWrap ("Error executing tool: Tool not recognized in: " ++ inner))
    | some tool_name =>
      match env.extract tool_name inner with
      | .validationError m => .observe (obsWrap ("Pydantic validation error: " ++ m))
      | .otherError m => .observe (obsWrap ("Error executing tool: " ++ m))
      | .ok p => .observe (obsWrap (execute_tool env.handlers tool_name (augmentParams ctx p)))
  else
    .rawReturn (pyStrip rc)

/-- One iteration body of `run_afm_cycle` applied to the model response
`rc`: the `<final_answer>` check comes first and returns immediately;
everything else is `toolOrFallback`. -/
def stepOf (env : AfmEnv) (ctx : AfmCtx) (rc : String) : StepAction :=
  if pyIn "<final_answer>" rc then
    .finalReturn (pyStrip (pyExtractTag rc "<final_answer>" "</final_answer>"))
  else toolOrFallback env ctx rc

/-- A turn of the message transcript built by `run_afm_cycle`: the seed
system prompt, a reasoning-model output (`AIMessage`), or an observation fed
back as a `HumanMessage`. -/
inductive Entry where
  | system (s : String)
  | ai (s : String)
  | observation (s : String)
deriving DecidableEq

/-- The primary reasoning model, as an oracle from turn number to response
text, together with the per-turn external collaborators of the iteration
body. -/
structure AfmOracle where
  resp : Nat → String
  env : Nat → AfmEnv

/-- How `run_afm_cycle` returned: through the final-answer branch, through
the permissive no-delimiter fallback, or by exhausting all iterations. -/
inductive AfmOutcome where
  | finalAnswer (s : String)
  | rawFallback (s : String)
  | exhausted (s : String)
deriving DecidableEq

/-- Result of a `run_afm_cycle` invocation: the transcript it accumulated,
how it returned (with the returned string), and how many primary-model calls
it issued. -/
structure AfmRun where
  transcript : List Entry
  outcome : AfmOutcome
  modelCalls : Nat
deriving DecidableEq

/-- The fixed apology returned at loop exhaustion. -/
def apologyString : String :=
  "I\x27m sorry, I couldn\x27t process your request after several attempts."

/-- The `for turn in range(max_turns)` loop of `run_afm_cycle`: each
iteration invokes the primary model once, appends its output, and acts per
`stepOf`; falling off the loop returns the fixed apology. -/
def runAfmAux (o : AfmOracle) (ctx : AfmCtx) : Nat → Nat → List Entry → AfmRun
  | 0, turn, msgs => ⟨msgs, .exhausted apologyString, turn⟩
  | fuel+1, turn, msgs =>
    let rc := o.resp turn
    match stepOf (o.env turn) ctx rc with
    | .finalReturn s => ⟨msgs ++ [.ai rc], .finalAnswer s, turn + 1⟩
    | .rawReturn s => ⟨msgs ++ [.ai rc], .rawFallback s, turn + 1⟩
    | .observe obs => runAfmAux o ctx fuel (turn + 1) (msgs ++ [.ai rc, .observation obs])

/-- `run_afm_cycle`: seeds the transcript with the single system turn built
from the master prompt (abstracted here as `seedPrompt`) and runs at most
`max_turns = 5` iterations. -/
def run_afm_cycle (o : AfmOracle) (ctx : AfmCtx) (seedPrompt : String) : AfmRun :=
  runAfmAux o ctx 5 0 [.system seedPrompt]

/-! ### Tool handlers (`src/agent/tools.py`)

`update_user_profile` and `save_grammar_correction` mix SQL queries, commits
and a Redis write-through. They are embedded as pure transformers of
explicit state records; the Redis `store.put` mirrors data already present
in the returned state and carries no decision, so it is not modelled
separately. -/

/-- Python truthiness of an `Optional[str]`: `None` and `""` are falsy. -/
def pyTruthyStr : Option String → Bool
  | none => false
  | some s => !(s = "")

/-- Python truthiness of an `Optional[List[str]]`: `None` and `[]` are
falsy. -/
def pyTruthyList : Option (List String) → Bool
  | none => false
  | some l => !l.isEmpty

/-- Canonical rendering of Python `list(set(a) | set(b))`: the elements of
the union, each exactly once. Python leaves the iteration order of a `set`
unspecified; `List.dedup` fixes one canonical order. -/
def pySetUnionList (a b : List String) : List String := (a ++ b).dedup

/-- The relevant columns of the `users` row mutated by
`update_user_profile` (`src/entities/user.py`): `first_name` is a non-null
column, `location` and `user_interests` are nullable. -/
structure UserRec where
  first_name : String
  location : Option String
  user_interests : Option (List String)
deriving DecidableEq

/-- Handler `update_user_profile` of `tools.py` on the row it queried
(`dbUser = None` models the user-not-found query result): truthy `name` and
`location` overwrite their columns, truthy `interests_to_add` replaces
`user_interests` with the set union of the current interests (`None`
coalesced to `[]` by `or []`) and the supplied ones. Returns the observation
string and the resulting row. -/
def update_user_profile (user_id : String) (dbUser : Option UserRec)
    (name location : Option String) (interests_to_add : Option (List String)) :
    String × Option UserRec :=
  match dbUser with
  | none => ("Error: User with ID " ++ user_id ++ " not found.", none)
  | some u0 =>
    let u1 := if pyTruthyStr name then { u0 with first_name := name.getD u0.first_name } else u0
    let u2 := if pyTruthyStr location then { u1 with location := location } else u1
    let u3 :=
      if pyTruthyList interests_to_add then
        { u2 with user_interests :=
            (some (pySetUnionList (u2.user_interests.getD []) (interests_to_add.getD []))) }
      else u2
    ("User profile updated successfully.", some u3)

/-- The `MessageRole` enum of `src/entities/message.py`. -/
inductive MessageRole where
  | human
  | ai
deriving DecidableEq

/-- The columns of a `messages` row consulted by
`save_grammar_correction`. Identifiers and timestamps are `Nat`-keyed. -/
structure MessageRec where
  id : Nat
  conversation_id : String
  role : MessageRole
  created_at : Nat
deriving DecidableEq

/-- A `grammar_corrections` row as created by `save_grammar_correction`. -/
structure CorrectionRec where
  message_id : Nat
  user_id : String
  original_text : String
  corrected_text : String
  explanation : String
  improvement : String
deriving DecidableEq

/-- The database state visible to `save_grammar_correction`. -/
structure DBState where
  messages : List MessageRec
  corrections : List CorrectionRec
deriving DecidableEq

/-- Stable insertion step for a descending sort by `created_at`. -/
def insertByCreatedDesc (a : MessageRec) : List MessageRec → List MessageRec
  | [] => [a]
  | b :: t => if a.created_at < b.created_at then b :: insertByCreatedDesc a t else a :: b :: t

/-- Stable descending sort by `created_at`, modelling
`order_by(Message.created_at.desc())`. -/
def sortByCreatedDesc : List MessageRec → List MessageRec
  | [] => []
  | a :: t => insertByCreatedDesc a (sortByCreatedDesc t)

/-- The query
`db.query(Message).filter(conversation_id == cid, role == HUMAN).order_by(created_at.desc()).first()`. -/
def lastHumanMessage (db : DBState) (cid : String) : Option MessageRec :=
  (sortByCreatedDesc (db.messages.filter
    (fun m => m.conversation_id = cid ∧ m.role = MessageRole.human))).head?

/-- Handler `save_grammar_correction` of `tools.py`: looks up the most
recent human message of the conversation; when none exists, reports an
error observation and leaves the database unchanged; otherwise inserts a
correction row linked to that message and reports success. -/
def save_grammar_correction (db : DBState) (user_id conversation_id : String)
    (original_text corrected_text explanation improvement : String) :
    String × DBState :=
  match lastHumanMessage db conversation_id with
  | none => ("Error: User message not found to link the correction.", db)
  | some msg =>
    ("Grammar correction saved successfully.",
      { db with corrections := db.corrections ++
          [⟨msg.id, user_id, original_text, corrected_text, explanation, improvement⟩] })

/-! ### Proofreading client (`src/agent/language_tool.py`) -/

/-- One element of the `matches` array of a LanguageTool response, with the
fields `check_text` reads (rule and context fields are carried as plain
strings). -/
structure LTMatch where
  message : String
  shortMessage : String
  offset : Nat
  length : Nat
  ruleId : String
  category : String
  replacements : List String
  context : String
deriving DecidableEq

/-- The `GrammarError` pydantic model of `language_tool.py`. -/
structure GrammarError where
  message : String
  short_message : String
  offset : Nat
  length : Nat
  rule_id : String
  category : String
  replacements : List String
  context : String
deriving DecidableEq

/-- The `LanguageToolCorrection` pydantic model, without the wall-clock
`timestamp` field. -/
structure LanguageToolCorrection where
  original_text : String
  corrected_text : String
  errors : List GrammarError
  explanation : String
deriving DecidableEq

/-- The outcome of the `requests.post` call in `check_text`: a parsed
`matches` list on success, or an exception (`RequestException` or any
other), whose two handlers behave identically. -/
inductive LTResponse where
  | success (ms : List LTMatch)
  | failure (msg : String)
deriving DecidableEq

/-- Field-by-field construction of `GrammarError` from a match, as in the
loop body of `check_text`. -/
def toGrammarError (m : LTMatch) : GrammarError :=
  ⟨m.message, m.shortMessage, m.offset, m.length, m.ruleId, m.category,
    m.replacements, m.context⟩

/-- Stable insertion step for a descending sort by `offset`. -/
def insertByOffsetDesc (a : LTMatch) : List LTMatch → List LTMatch
  | [] => [a]
  | b :: t => if a.offset < b.offset then b :: insertByOffsetDesc a t else a :: b :: t

/-- Stable descending sort by `offset`, modelling
`sorted(matches, key=lambda x: x["offset"], reverse=True)`. -/
def sortByOffsetDesc : List LTMatch → List LTMatch
  | [] => []
  | a :: t => insertByOffsetDesc a (sortByOffsetDesc t)

/-- The update
`corrected_text = corrected_text[:start] + replacements[0] + corrected_text[end:]`
performed for one match that has replacement candidates; a match without
candidates leaves the text unchanged. Offsets are character offsets, as
Python string slicing is. -/
def spliceMatch (c : List Char) (m : LTMatch) : List Char :=
  match m.replacements with
  | [] => c
  | r0 :: _ => c.take m.offset ++ r0.toList ++ c.drop (m.offset + m.length)

/-- The corrected text after folding the (descending-sorted) matches
left to right, as the `for match in matches` loop does. -/
def applyMatchesDesc (c : List Char) : List LTMatch → List Char
  | [] => c
  | m :: rest => applyMatchesDesc (spliceMatch c m) rest

/-- Python `"sep".join(parts)`. -/
def joinWith (sep : String) : List String → String
  | [] => ""
  | [x] => x
  | x :: xs => x ++ sep ++ joinWith sep xs

/-- Python `error.short_message or error.message` (or-coalescing on a
possibly empty string). -/
def shortOrMessage (e : GrammarError) : String :=
  if e.short_message = "" then e.message else e.short_message

/-- Method `_create_explanation` of `LanguageToolAPI`: a human-friendly
rendering of the error list. -/
def create_explanation (errors : List GrammarError) : String :=
  match errors with
  | [] => "No grammar errors found."
  | [e] =>
    match e.replacements with
    | r0 :: _ =>
      "Found 1 error: " ++ shortOrMessage e ++ ". Suggested correction: \x27" ++ r0 ++ "\x27"
    | [] => "Found 1 error: " ++ shortOrMessage e
  | _ =>
    "Found " ++ toString errors.length ++ " errors:\n" ++
      joinWith "\n" ((errors.enum).map (fun p =>
        toString (p.1 + 1) ++ ". " ++
          (match p.2.replacements with
           | r0 :: _ => shortOrMessage p.2 ++ " â†’ \x27" ++ r0 ++ "\x27"
           | [] => shortOrMessage p.2)))

/-- Method `check_text` of `LanguageToolAPI` given the outcome of the HTTP
call: on success, sorts the matches by offset descending, converts each to a
`GrammarError`, rewrites the text by substituting the top-ranked replacement
of each match that has one (back to front), and attaches the explanation;
on any exception, returns the original text unchanged with no errors and
the neutral explanation. -/
def check_text (response : LTResponse) (text : String) : LanguageToolCorrection :=
  match response with
  | .failure _ =>
    ⟨text, text, [], "Unable to check grammar at this time."⟩
  | .success ms =>
    let sorted := sortByOffsetDesc ms
    let errors := sorted.map toGrammarError
    let corrected := (applyMatchesDesc text.toList sorted).asString
    ⟨text, corrected, errors, create_explanation errors⟩

/-! ### Grammar stage of the preprocessing pipeline
(`src/agent/grammar_pipe.py`, `syntactic_check_node`) -/

/-- Node `syntactic_check_node`: runs `check_text` on the user input and
renders the `syntactic_analysis` string of the pipeline state — the error
summary when errors were flagged, the fixed Portuguese no-error sentence
otherwise. -/
def syntactic_check_node (response : LTResponse) (user_input : String) : String :=
  let correction_result := check_text response user_input
  if !correction_result.errors.isEmpty then
    "Foram encontrados erros. Texto original: \x27" ++ correction_result.original_text ++
      "\x27. Correção sugerida: \x27" ++ correction_result.corrected_text ++
      "\x27. Explicação: " ++ correction_result.explanation
  else
    "Nenhum erro de sintaxe encontrado."

/-! ### Specification-side rewrite for claim C9

`specSimultaneousSubst` follows the words of the spec sentence: for each
flagged span (taken at its offsets into the *original* text), substitute the
service's top-ranked replacement, all spans substituted simultaneously. It
recurses over the spans in ascending order, so no edit can shift another
span's offsets; `spansSeparated` states the well-formedness the sentence
presumes (spans in order, pairwise disjoint, within the text). -/

/-- Ascending, nonempty, pairwise-disjoint, in-bounds spans: each span
starts no earlier than `base` (the end of the previous span), is at least
one character long, and ends within `limit`. -/
def spansSeparated (base limit : Nat) : List LTMatch → Bool
  | [] => true
  | m :: rest =>
    decide (base ≤ m.offset) && decide (1 ≤ m.length) &&
      decide (m.offset + m.length ≤ limit) &&
      spansSeparated (m.offset + m.length) limit rest

/-- Simultaneous substitution of the top-ranked replacement into every span,
at the spans' original offsets; `base` is the offset of the first character
of `s` in the original text. Spans without replacement candidates are left
as they are. -/
def specSimultaneousSubst (base : Nat) (s : List Char) : List LTMatch → List Char
  | [] => s
  | m :: rest =>
    match m.replacements with
    | [] => specSimultaneousSubst base s rest
    | r0 :: _ =>
      s.take (m.offset - base) ++ r0.toList ++
        specSimultaneousSubst (m.offset + m.length) (s.drop (m.offset + m.length - base)) rest

/-! ### General helper lemmas -/

/-- Unfolding `toList` over string concatenation. -/
theorem strToList_append (a b : String) : (a ++ b).toList = a.toList ++ b.toList := by
  cases a; cases b; rfl

/-- String concatenation is associative. -/
theorem strAppend_assoc (a b c : String) : a ++ b ++ c = a ++ (b ++ c) := by
  cases a; cases b; cases c
  show String.mk _ = String.mk _
  simp [String.append]

/-- A string occurs (in the sense of Python `in`) in any concatenation that
embeds it between a prefix and a suffix. -/
theorem pyIn_append_middle (a m b : String) : pyIn m (a ++ m ++ b) = true := by
  have h : (a ++ m ++ b).toList = a.toList ++ m.toList ++ b.toList := by
    cases a; cases m; cases b; rfl
  simp only [pyIn, h, decide_eq_true_eq]
  exact ⟨a.toList, b.toList, rfl⟩

/-! ### Loop-level lemmas for `run_afm_cycle` -/

/-- Each loop entry consumes one unit of fuel and issues one primary-model
call, so the call count is bounded by the starting turn plus the fuel. -/
theorem runAfmAux_modelCalls_le (o : AfmOracle) (ctx : AfmCtx) :
    ∀ (fuel turn : Nat) (msgs : List Entry),
      (runAfmAux o ctx fuel turn msgs).modelCalls ≤ turn + fuel := by
  intro fuel
  induction fuel with
  | zero => intro turn msgs; simp [runAfmAux]
  | succ n ih =>
    intro turn msgs
    cases h : stepOf (o.env turn) ctx (o.resp turn) with
    | finalReturn s => simp only [runAfmAux, h]; omega
    | rawReturn s => simp only [runAfmAux, h]; omega
    | observe obs =>
      simp only [runAfmAux, h]
      have := ih (turn + 1) (msgs ++ [.ai (o.resp turn), .observation obs])
      omega

/-- An exhausted outcome carries the fixed apology string and occurs only
after all the fuel has been spent on model calls. -/
theorem runAfmAux_exhausted (o : AfmOracle) (ctx : AfmCtx) :
    ∀ (fuel turn : Nat) (msgs : List Entry) (s : String),
      (runAfmAux o ctx fuel turn msgs).outcome = .exhausted s →
      s = apologyString ∧ (runAfmAux o ctx fuel turn msgs).modelCalls = turn + fuel := by
  intro fuel
  induction fuel with
  | zero => intro turn msgs s h; simp [runAfmAux] at h ⊢; exact h.symm
  | succ n ih =>
    intro turn msgs s h
    cases hs : stepOf (o.env turn) ctx (o.resp turn) with
    | finalReturn v => simp [runAfmAux, hs] at h
    | rawReturn v => simp [runAfmAux, hs] at h
    | observe obs =>
      simp only [runAfmAux, hs] at h ⊢
      have := ih (turn + 1) (msgs ++ [.ai (o.resp turn), .observation obs]) s h
      exact ⟨this.1, by omega⟩

/-- A loop iteration whose step appends an observation continues into the
next iteration with the model output and the observation appended to the
transcript. -/
theorem runAfmAux_observe_step (o : AfmOracle) (ctx : AfmCtx)
    (fuel turn : Nat) (msgs : List Entry) (obs : String)
    (h : stepOf (o.env turn) ctx (o.resp turn) = .observe obs) :
    runAfmAux o ctx (fuel + 1) turn msgs =
      runAfmAux o ctx fuel (turn + 1) (msgs ++ [.ai (o.resp turn), .observation obs]) := by
  simp only [runAfmAux, h]

/-! ### Concrete fixtures used by witnesses and counterexamples -/

/-- An environment whose extractor and handlers are never consulted by the
runs below. -/
def envW : AfmEnv := ⟨fun _ _ => ExtractResult.otherError "unused", fun _ _ => "unused"⟩

/-- A second, observably different environment. -/
def envW2 : AfmEnv := ⟨fun _ _ => ExtractResult.ok [], fun n _ => "ran " ++ n⟩

/-- An extractor environment that always fails schema validation. -/
def envVal : AfmEnv := ⟨fun _ _ => ExtractResult.validationError "boom", fun _ _ => "unused"⟩

/-- A per-invocation context. -/
def ctxW : AfmCtx := ⟨"user-1", "conv-1"⟩

/-- A model that always emits a tool call naming no known tool, so the loop
never returns early. -/
def exhaustOracle : AfmOracle := ⟨fun _ => "<tool_call>noop()</tool_call>", fun _ => envW⟩

/-- A model whose response opens a `<final_answer>` tag but never closes
it. -/
def oracleNoClose : AfmOracle := ⟨fun _ => "<final_answer>hi", fun _ => envW⟩

/-- A model that calls a tool whose name matches no known identifier. -/
def oracleUnknown : AfmOracle := ⟨fun _ => "<tool_call>MagicTool(1)</tool_call>", fun _ => envW⟩

/-- A second unrecognized-tool model, used to instantiate the amended
claim. -/
def oracleUnknown2 : AfmOracle := ⟨fun _ => "<tool_call>Frobnicate(2)</tool_call>", fun _ => envW⟩

/-- A model that calls a known tool whose parameter extraction then fails
validation. -/
def oracleVal : AfmOracle :=
  ⟨fun _ => "<tool_call>UpdateUserProfile(name=Bob)</tool_call>", fun _ => envVal⟩

/-- A response carrying both a complete final-answer section and a complete
tool-call section. -/
def rcBoth : String :=
  "<plan>p</plan><final_answer> A </final_answer><tool_call>WebSearch(q)</tool_call>"

/-! ### C1 -/

/-- C1: for every oracle, context and seed prompt, `run_afm_cycle` issues at
most 5 primary-model calls, and when it ends in the EXHAUSTED outcome the
returned string is the fixed apology (and all 5 calls were made). -/
theorem afm_bounded_and_exhausted_is_apology (o : AfmOracle) (ctx : AfmCtx) (seed : String) :
    (run_afm_cycle o ctx seed).modelCalls ≤ 5 ∧
    (∀ s : String, (run_afm_cycle o ctx seed).outcome = .exhausted s →
      s = apologyString ∧ (run_afm_cycle o ctx seed).modelCalls = 5) := by
  refine ⟨runAfmAux_modelCalls_le o ctx 5 0 [.system seed], ?_⟩
  intro s h
  exact runAfmAux_exhausted o ctx 5 0 [.system seed] s h

/-- Witness for C1: a model that always emits an unrecognized tool call
drives the loop to exhaustion; the bound and the apology are obtained from
the theorem at that concrete input. -/
theorem afm_bounded_and_exhausted_is_apology_witness :
    (run_afm_cycle exhaustOracle ctxW "seed").modelCalls ≤ 5 ∧
    apologyString = apologyString ∧
    (run_afm_cycle exhaustOracle ctxW "seed").modelCalls = 5 :=
  ⟨(afm_bounded_and_exhausted_is_apology exhaustOracle ctxW "seed").1,
    (afm_bounded_and_exhausted_is_apology exhaustOracle ctxW "seed").2
      apologyString (by decide)⟩

/-! ### C2 -/

/-- C2 counterexample: a response that contains the opening delimiter but no
complete `<final_answer>...</final_answer>` section (no closing delimiter
occurs in it at all) still triggers the final-answer path, and the loop
returns the text after the opening delimiter. This falsifies the claimed
equivalence with containing a complete delimited section. -/
theorem final_answer_open_tag_counterexample :
    (run_afm_cycle oracleNoClose ctxW "s").outcome = .finalAnswer "hi" ∧
    pyIn "</final_answer>" (oracleNoClose.resp 0) = false := by decide

/-- C2 (amended): a loop iteration returns through the final-answer branch
if and only if the model response contains the opening delimiter
`<final_answer>`, and the value returned is the text after the first
opening delimiter and before the next closing delimiter (the whole
remainder when no closing delimiter follows), trimmed of surrounding
whitespace — independent of any other delimited sections present. No other
branch of the iteration yields a `finalReturn`. -/
theorem final_answer_branch_iff (env : AfmEnv) (ctx : AfmCtx) (rc v : String) :
    stepOf env ctx rc = StepAction.finalReturn v ↔
      (pyIn "<final_answer>" rc = true ∧
        v = pyStrip (pyExtractTag rc "<final_answer>" "</final_answer>")) := by
  unfold stepOf
  by_cases h1 : pyIn "<final_answer>" rc = true
  · simp [h1, eq_comm]
  · simp only [h1]
    simp only [Bool.not_eq_true] at h1
    simp only [h1, Bool.false_eq_true, if_false]
    constructor
    · intro h
      exfalso
      unfold toolOrFallback at h
      by_cases ht : pyIn "<tool_call>" rc = true
      · simp only [ht, if_true] at h
        cases hc : classifyTool (toolCallInner rc) with
        | none => simp [hc] at h
        | some nm =>
          cases he : env.extract nm (toolCallInner rc) with
          | ok p => simp [hc, he] at h
          | validationError m => simp [hc, he] at h
          | otherError m => simp [hc, he] at h
      · simp only [Bool.not_eq_true] at ht
        simp [ht] at h
    · rintro ⟨hc, -⟩
      exact hc.elim

/-- Witness for C2 (amended): at a response carrying a complete section
surrounded by other tags, the branch fires and returns the trimmed
content. -/
theorem final_answer_branch_iff_witness :
    stepOf envW ctxW rcBoth = StepAction.finalReturn "A" :=
  (final_answer_branch_iff envW ctxW rcBoth "A").mpr ⟨by decide, by decide⟩

/-! ### C10 -/

/-- C10: when a model response contains both a `<final_answer>` and a
`<tool_call>` delimiter, the iteration returns the trimmed final-answer
content; the result does not depend on the extractor, the handlers or the
injected context, so no parameter extraction and no tool dispatch is
performed for that response. -/
theorem final_answer_precedes_tool_call (env env2 : AfmEnv) (ctx ctx2 : AfmCtx) (rc : String)
    (hf : pyIn "<final_answer>" rc = true) (ht : pyIn "<tool_call>" rc = true) :
    stepOf env ctx rc =
      StepAction.finalReturn (pyStrip (pyExtractTag rc "<final_answer>" "</final_answer>")) ∧
    stepOf env ctx rc = stepOf env2 ctx2 rc := by
  unfold stepOf
  simp [hf]

/-- Witness for C10: a concrete response with both sections, two observably
different environments and contexts. -/
theorem final_answer_precedes_tool_call_witness :
    stepOf envW ctxW rcBoth =
      StepAction.finalReturn (pyStrip (pyExtractTag rcBoth "<final_answer>" "</final_answer>")) ∧
    stepOf envW ctxW rcBoth = stepOf envW2 ⟨"u2", "c2"⟩ rcBoth :=
  final_answer_precedes_tool_call envW envW2 ctxW ⟨"u2", "c2"⟩ rcBoth (by decide) (by decide)

/-! ### C3 -/

set_option maxRecDepth 10000 in
/-- C3 counterexample: for a `<tool_call>` naming no known tool, the loop
does append an observation and continue, but its shape is
`Error executing tool: Tool not recognized in: <inner text>` — the claimed
shape `Error: Tool \x27<name>\x27 is not recognized.` does not occur (its
characteristic fragment `is not recognized` appears nowhere in the
transcript entry). -/
theorem unrecognized_tool_shape_counterexample :
    (run_afm_cycle oracleUnknown ctxW "s").transcript.getD 2 (.system "") =
      .observation "<observation>\nError executing tool: Tool not recognized in: MagicTool(1)\n</observation>" ∧
    pyIn "is not recognized"
      "<observation>\nError executing tool: Tool not recognized in: MagicTool(1)\n</observation>" = false := by
  decide

/-- C3 (amended): when the trimmed inner text of a `<tool_call>` section
contains none of the known identifiers, the iteration appends an
observation of the shape
`Error executing tool: Tool not recognized in: <inner text>` (the
`ValueError` raised by the recognition chain, caught by the iteration's
exception handler) and the loop proceeds to its next iteration instead of
terminating or raising. -/
theorem unrecognized_tool_observation_and_continue (o : AfmOracle) (ctx : AfmCtx)
    (fuel turn : Nat) (msgs : List Entry)
    (hf : pyIn "<final_answer>" (o.resp turn) = false)
    (ht : pyIn "<tool_call>" (o.resp turn) = true)
    (h1 : pyIn "WebSearch" (toolCallInner (o.resp turn)) = false)
    (h2 : pyIn "UpdateUserProfile" (toolCallInner (o.resp turn)) = false)
    (h3 : pyIn "SaveGrammarCorrection" (toolCallInner (o.resp turn)) = false) :
    stepOf (o.env turn) ctx (o.resp turn) =
      .observe (obsWrap ("Error executing tool: Tool not recognized in: " ++
        toolCallInner (o.resp turn))) ∧
    runAfmAux o ctx (fuel + 1) turn msgs =
      runAfmAux o ctx fuel (turn + 1)
        (msgs ++ [.ai (o.resp turn),
          .observation (obsWrap ("Error executing tool: Tool not recognized in: " ++
            toolCallInner (o.resp turn)))]) := by
  have hstep : stepOf (o.env turn) ctx (o.resp turn) =
      .observe (obsWrap ("Error executing tool: Tool not recognized in: " ++
        toolCallInner (o.resp turn))) := by
    unfold stepOf toolOrFallback classifyTool
    simp [hf, ht, h1, h2, h3]
  exact ⟨hstep, runAfmAux_observe_step o ctx fuel turn msgs _ hstep⟩

/-- Witness for C3 (amended): a concrete unrecognized tool call, with the
loop-step equation instantiated at fuel 0, turn 0 and an empty
transcript. -/
theorem unrecognized_tool_observation_and_continue_witness :
    stepOf (oracleUnknown2.env 0) ctxW (oracleUnknown2.resp 0) =
      .observe (obsWrap ("Error executing tool: Tool not recognized in: " ++
        toolCallInner (oracleUnknown2.resp 0))) ∧
    runAfmAux oracleUnknown2 ctxW 1 0 [] =
      runAfmAux oracleUnknown2 ctxW 0 1
        ([] ++ [.ai (oracleUnknown2.resp 0),
          .observation (obsWrap ("Error executing tool: Tool not recognized in: " ++
            toolCallInner (oracleUnknown2.resp 0)))]) :=
  unrecognized_tool_observation_and_continue oracleUnknown2 ctxW 0 0 []
    (by decide) (by decide) (by decide) (by decide) (by decide)

/-! ### C6 -/

/-- C6: when extraction for a recognized tool fails schema validation, the
iteration neither terminates nor raises: it appends an observation that
embeds the validation error text (the error text occurs in the appended
entry) and the loop proceeds to its next iteration. -/
theorem validation_failure_observation_and_continue (o : AfmOracle) (ctx : AfmCtx)
    (fuel turn : Nat) (msgs : List Entry) (toolName m : String)
    (hf : pyIn "<final_answer>" (o.resp turn) = false)
    (ht : pyIn "<tool_call>" (o.resp turn) = true)
    (hc : classifyTool (toolCallInner (o.resp turn)) = some toolName)
    (he : (o.env turn).extract toolName (toolCallInner (o.resp turn)) =
      .validationError m) :
    stepOf (o.env turn) ctx (o.resp turn) =
      .observe (obsWrap ("Pydantic validation error: " ++ m)) ∧
    pyIn m (obsWrap ("Pydantic validation error: " ++ m)) = true ∧
    runAfmAux o ctx (fuel + 1) turn msgs =
      runAfmAux o ctx fuel (turn + 1)
        (msgs ++ [.ai (o.resp turn),
          .observation (obsWrap ("Pydantic validation error: " ++ m))]) := by
  have hstep : stepOf (o.env turn) ctx (o.resp turn) =
      .observe (obsWrap ("Pydantic validation error: " ++ m)) := by
    unfold stepOf toolOrFallback
    simp [hf, ht, hc, he]
  refine ⟨hstep, ?_, runAfmAux_observe_step o ctx fuel turn msgs _ hstep⟩
  have hshape : obsWrap ("Pydantic validation error: " ++ m) =
      ("<observation>\n" ++ "Pydantic validation error: ") ++ m ++ "\n</observation>" := by
    unfold obsWrap
    rw [strAppend_assoc "<observation>\n" "Pydantic validation error: " m]
  rw [hshape]
  exact pyIn_append_middle ("<observation>\n" ++ "Pydantic validation error: ") m "\n</observation>"

/-- Witness for C6: a concrete `UpdateUserProfile` call whose extraction
fails validation with message `boom`. -/
theorem validation_failure_observation_and_continue_witness :
    stepOf (oracleVal.env 0) ctxW (oracleVal.resp 0) =
      .observe (obsWrap ("Pydantic validation error: " ++ "boom")) ∧
    pyIn "boom" (obsWrap ("Pydantic validation error: " ++ "boom")) = true ∧
    runAfmAux oracleVal ctxW 1 0 [] =
      runAfmAux oracleVal ctxW 0 1
        ([] ++ [.ai (oracleVal.resp 0),
          .observation (obsWrap ("Pydantic validation error: " ++ "boom"))]) :=
  validation_failure_observation_and_continue oracleVal ctxW 0 0 [] "UpdateUserProfile" "boom"
    (by decide) (by decide) (by decide) (by rfl)

/-! ### C7 -/

/-- With only `interests_to_add` supplied (and nonempty), the handler
rewrites exactly the `user_interests` column, to the deduplicated
concatenation of current and added interests. -/
theorem update_interests_only (uid : String) (u : UserRec) (adds : List String)
    (h : adds ≠ []) :
    (update_user_profile uid (some u) none none (some adds)).2 =
      some ({ u with user_interests := (some ((u.user_interests.getD [] ++ adds).dedup)) }) := by
  cases adds with
  | nil => exact absurd rfl h
  | cons a t => simp [update_user_profile, pyTruthyStr, pyTruthyList, pySetUnionList]

/-- C7: the profile-update handler gives `interests_to_add` set-union
semantics — membership in the new interest set is membership in the old set
or in the supplied additions, and adding the same interest twice in
sequence leaves it in the set exactly once — while `name` and `location`
use overwrite semantics in which an absent field leaves the prior value
untouched. -/
theorem update_user_profile_semantics
    (u : UserRec) (uid n l i x : String) (loc : Option String) (adds : List String)
    (oAdds : Option (List String))
    (hn : n ≠ "") (hl : l ≠ "") (ha : adds ≠ []) :
    (x ∈ (((update_user_profile uid (some u) none none (some adds)).2.getD u).user_interests.getD [])
      ↔ (x ∈ u.user_interests.getD [] ∨ x ∈ adds)) ∧
    List.count i (((update_user_profile uid
        ((update_user_profile uid (some u) none none (some [i])).2)
        none none (some [i])).2.getD u).user_interests.getD []) = 1 ∧
    ((update_user_profile uid (some u) (some n) loc oAdds).2.getD u).first_name = n ∧
    ((update_user_profile uid (some u) none loc (some adds)).2.getD u).first_name = u.first_name ∧
    ((update_user_profile uid (some u) none (some l) oAdds).2.getD u).location = some l ∧
    ((update_user_profile uid (some u) none none oAdds).2.getD u).location = u.location := by
  refine ⟨?_, ?_, ?_, ?_, ?_, ?_⟩
  · rw [update_interests_only uid u adds ha]
    simp [List.mem_dedup, List.mem_append]
  · rw [update_interests_only uid u [i] (by simp)]
    rw [update_interests_only uid _ [i] (by simp)]
    simp only [Option.getD_some]
    exact List.count_eq_one_of_mem (List.nodup_dedup _)
      (List.mem_dedup.mpr (by simp))
  · simp only [update_user_profile, pyTruthyStr, hn]
    split <;> split <;> simp_all
  · simp only [update_user_profile, pyTruthyStr]
    split <;> split <;> simp_all
  · simp only [update_user_profile, pyTruthyStr, hl]
    split <;> simp_all
  · simp only [update_user_profile, pyTruthyStr]
    split <;> simp_all

/-- A concrete profile row for witnesses. -/
def uW : UserRec := ⟨"Al", none, some ["go"]⟩

/-- Witness for C7: the semantics theorem instantiated at a concrete row,
concrete names and a concrete interest. -/
theorem update_user_profile_semantics_witness :
    (("go" ∈ (((update_user_profile "u1" (some uW) none none (some ["chess"])).2.getD uW).user_interests.getD [])
      ↔ ("go" ∈ uW.user_interests.getD [] ∨ "go" ∈ (["chess"] : List String))) ∧
    List.count "chess" (((update_user_profile "u1"
        ((update_user_profile "u1" (some uW) none none (some ["chess"])).2)
        none none (some ["chess"])).2.getD uW).user_interests.getD []) = 1 ∧
    ((update_user_profile "u1" (some uW) (some "Bob") none none).2.getD uW).first_name = "Bob" ∧
    ((update_user_profile "u1" (some uW) none none (some ["chess"])).2.getD uW).first_name = uW.first_name ∧
    ((update_user_profile "u1" (some uW) none (some "Paris") none).2.getD uW).location = some "Paris" ∧
    ((update_user_profile "u1" (some uW) none none none).2.getD uW).location = uW.location) :=
  update_user_profile_semantics uW "u1" "Bob" "Paris" "chess" "go" none ["chess"] none
    (by decide) (by decide) (by decide)

/-! ### C8 -/

/-- C8: dispatching `SaveGrammarCorrection` for a conversation containing
no human-authored message returns an observation that is the fixed error
string (in particular it begins with `Error:`), and the database is left
unchanged — no correction record is persisted and nothing is raised. -/
theorem save_grammar_correction_no_human (db : DBState) (uid cid ot ct ex imp : String)
    (h : ∀ m ∈ db.messages, m.conversation_id = cid → m.role ≠ MessageRole.human) :
    (save_grammar_correction db uid cid ot ct ex imp).1 =
      "Error: User message not found to link the correction." ∧
    pyStartsWith "Error:" (save_grammar_correction db uid cid ot ct ex imp).1 = true ∧
    (save_grammar_correction db uid cid ot ct ex imp).2 = db := by
  have hfil : List.filter
      (fun m => decide (m.conversation_id = cid ∧ m.role = MessageRole.human)) db.messages = [] := by
    rw [List.filter_eq_nil_iff]
    intro a ha
    simp only [decide_eq_true_eq]
    rintro ⟨hc, hr⟩
    exact h a ha hc hr
  have hl : lastHumanMessage db cid = none := by
    unfold lastHumanMessage
    rw [hfil]
    rfl
  unfold save_grammar_correction
  rw [hl]
  refine ⟨rfl, ?_, rfl⟩
  show pyStartsWith "Error:" "Error: User message not found to link the correction." = true
  decide

/-- A database whose only human message belongs to another conversation. -/
def dbNoHuman : DBState := ⟨[⟨1, "c1", .ai, 10⟩, ⟨2, "c2", .human, 12⟩], []⟩

/-- Witness for C8: conversation `c1` has an AI message but no human
message. -/
theorem save_grammar_correction_no_human_witness :
    (save_grammar_correction dbNoHuman "u1" "c1" "a" "b" "c" "d").1 =
      "Error: User message not found to link the correction." ∧
    pyStartsWith "Error:" (save_grammar_correction dbNoHuman "u1" "c1" "a" "b" "c" "d").1 = true ∧
    (save_grammar_correction dbNoHuman "u1" "c1" "a" "b" "c" "d").2 = dbNoHuman :=
  save_grammar_correction_no_human dbNoHuman "u1" "c1" "a" "b" "c" "d" (by decide)

/-! ### C4 -/

/-- C4 counterexample: on a successful proofreading response with zero
flagged errors, the grammar stage yields the fixed Portuguese sentence
`Nenhum erro de sintaxe encontrado.`, not the literal
`no syntax errors found` stated by the claim. -/
theorem grammar_zero_errors_literal_counterexample :
    syntactic_check_node (.success []) "Hello" = "Nenhum erro de sintaxe encontrado." ∧
    syntactic_check_node (.success []) "Hello" ≠ "no syntax errors found" := by
  decide

/-- C4 (amended): when the proofreading service responds successfully with
zero flagged errors, the grammar stage yields the literal explanation
`Nenhum erro de sintaxe encontrado.` (Portuguese for "no syntax error
found") as its syntactic analysis output. -/
theorem grammar_zero_errors_literal (text : String) :
    syntactic_check_node (.success []) text = "Nenhum erro de sintaxe encontrado." := rfl

/-! ### C5 -/

/-- C5 counterexample: on a transport failure the grammar stage output is
the fixed no-errors sentence, not the neutral explanation — the substring
`unable to check grammar` does not occur in it. -/
theorem grammar_failure_stage_output_counterexample :
    syntactic_check_node (.failure "timeout") "Hello" = "Nenhum erro de sintaxe encontrado." ∧
    pyIn "unable to check grammar" (syntactic_check_node (.failure "timeout") "Hello") = false := by
  decide

/-- C5 (amended): on any transport failure or unexpected exception from the
proofreading service, `check_text` degrades to a zero-error result whose
`explanation` field is the neutral `Unable to check grammar at this time.`
and whose corrected text is the input unchanged; the grammar stage then
completes successfully — it does not fail the pipeline — yielding the
no-errors analysis string (the neutral explanation is not propagated into
the stage output). -/
theorem grammar_failure_degrades_gracefully (msg text : String) :
    check_text (.failure msg) text =
      ⟨text, text, [], "Unable to check grammar at this time."⟩ ∧
    syntactic_check_node (.failure msg) text = "Nenhum erro de sintaxe encontrado." :=
  ⟨rfl, rfl⟩

/-! ### C9 -/

/-- Every span of a separated chain starts at or after the chain's base. -/
theorem spansSeparated_le_offset :
    ∀ (ms : List LTMatch) (base lim : Nat), spansSeparated base lim ms = true →
      ∀ m ∈ ms, base ≤ m.offset := by
  intro ms
  induction ms with
  | nil => intro base lim _ m hm; exact absurd hm (List.not_mem_nil m)
  | cons m rest ih =>
    intro base lim h x hx
    simp only [spansSeparated, Bool.and_eq_true, decide_eq_true_eq] at h
    obtain ⟨⟨⟨h1, h2⟩, h3⟩, h4⟩ := h
    rcases List.mem_cons.mp hx with rfl | hx
    · exact h1
    · have := ih (m.offset + m.length) lim h4 x hx
      omega

/-- Lowering the base preserves separation. -/
theorem spansSeparated_mono (b' base lim : Nat) (ms : List LTMatch)
    (h : spansSeparated base lim ms = true) (hb : b' ≤ base) :
    spansSeparated b' lim ms = true := by
  cases ms with
  | nil => rfl
  | cons m rest =>
    simp only [spansSeparated, Bool.and_eq_true, decide_eq_true_eq] at h ⊢
    obtain ⟨⟨⟨h1, h2⟩, h3⟩, h4⟩ := h
    exact ⟨⟨⟨by omega, h2⟩, h3⟩, h4⟩

/-- Folding splices over a concatenation of match lists. -/
theorem applyMatchesDesc_append (l1 l2 : List LTMatch) :
    ∀ c, applyMatchesDesc c (l1 ++ l2) = applyMatchesDesc (applyMatchesDesc c l1) l2 := by
  induction l1 with
  | nil => intro c; rfl
  | cons m t ih => intro c; simp only [List.cons_append, applyMatchesDesc]; exact ih _

/-- Inserting an element smaller than everything in a descending list puts
it at the end. -/
theorem insertByOffsetDesc_eq_append (a : LTMatch) (l : List LTMatch)
    (h : ∀ b ∈ l, a.offset < b.offset) :
    insertByOffsetDesc a l = l ++ [a] := by
  induction l with
  | nil => rfl
  | cons b t ih =>
    simp only [insertByOffsetDesc, if_pos (h b (List.mem_cons_self b t)), List.cons_append]
    rw [ih (fun x hx => h x (List.mem_cons_of_mem b hx))]

/-- On a separated (hence strictly ascending) match list, the stable
descending sort of `check_text` is exactly list reversal. -/
theorem sortByOffsetDesc_of_separated :
    ∀ (ms : List LTMatch) (base lim : Nat), spansSeparated base lim ms = true →
      sortByOffsetDesc ms = ms.reverse := by
  intro ms
  induction ms with
  | nil => intro base lim _; rfl
  | cons m rest ih =>
    intro base lim h
    simp only [spansSeparated, Bool.and_eq_true, decide_eq_true_eq] at h
    obtain ⟨⟨⟨h1, h2⟩, h3⟩, h4⟩ := h
    simp only [sortByOffsetDesc, List.reverse_cons]
    rw [ih (m.offset + m.length) lim h4]
    refine insertByOffsetDesc_eq_append m rest.reverse (fun b hb => ?_)
    have := spansSeparated_le_offset rest (m.offset + m.length) lim h4 b (List.mem_reverse.mp hb)
    omega

/-- Simultaneous substitution distributes over an untouched prefix: when
every span starts at or after the end of `p`, substituting into `p ++ q`
leaves `p` intact and substitutes into `q` with a shifted base. -/
theorem specSubst_append (ms : List LTMatch) (p q : List Char) (base : Nat)
    (h : ∀ m ∈ ms, base + p.length ≤ m.offset) :
    specSimultaneousSubst base (p ++ q) ms =
      p ++ specSimultaneousSubst (base + p.length) q ms := by
  induction ms with
  | nil => rfl
  | cons m rest ih =>
    have hm := h m (List.mem_cons_self m rest)
    cases hr : m.replacements with
    | nil =>
      simp only [specSimultaneousSubst, hr]
      exact ih (fun x hx => h x (List.mem_cons_of_mem m hx))
    | cons r0 rs =>
      simp only [specSimultaneousSubst, hr]
      have e1 : m.offset - base = p.length + (m.offset - (base + p.length)) := by omega
      have e2 : m.offset + m.length - base =
          p.length + (m.offset + m.length - (base + p.length)) := by omega
      rw [e1, e2, List.take_append, List.drop_append]
      simp [List.append_assoc]

/-- Applying the splices back to front (largest offset first) computes the
simultaneous substitution at the original offsets, provided the flagged
spans are separated and in bounds. -/
theorem applyDesc_reverse_eq_spec :
    ∀ (ms : List LTMatch) (s : List Char), spansSeparated 0 s.length ms = true →
      applyMatchesDesc s ms.reverse = specSimultaneousSubst 0 s ms := by
  intro ms
  induction ms with
  | nil => intro s _; rfl
  | cons m rest ih =>
    intro s h
    simp only [spansSeparated, Bool.and_eq_true, decide_eq_true_eq] at h
    obtain ⟨⟨⟨h1, h2⟩, h3⟩, h4⟩ := h
    have hofs : ∀ x ∈ rest, m.offset + m.length ≤ x.offset :=
      spansSeparated_le_offset rest (m.offset + m.length) s.length h4
    have hrest0 : spansSeparated 0 s.length rest = true :=
      spansSeparated_mono 0 (m.offset + m.length) s.length rest h4 (Nat.zero_le _)
    have hX : applyMatchesDesc s rest.reverse = specSimultaneousSubst 0 s rest := ih s hrest0
    rw [List.reverse_cons, applyMatchesDesc_append, hX]
    show spliceMatch (specSimultaneousSubst 0 s rest) m = _
    cases hr : m.replacements with
    | nil => simp only [spliceMatch, hr, specSimultaneousSubst]
    | cons r0 rs =>
      have hlen1 : (s.take m.offset).length = m.offset := by
        rw [List.length_take]; omega
      have hlen2 : (s.take (m.offset + m.length)).length = m.offset + m.length := by
        rw [List.length_take]; omega
      have hd1 : specSimultaneousSubst 0 s rest =
          s.take m.offset ++ specSimultaneousSubst m.offset (s.drop m.offset) rest := by
        have hh : ∀ x ∈ rest, 0 + (s.take m.offset).length ≤ x.offset := by
          intro x hx
          have := hofs x hx
          omega
        have := specSubst_append rest (s.take m.offset) (s.drop m.offset) 0 hh
        rw [List.take_append_drop] at this
        rw [this, hlen1, Nat.zero_add]
      have hd2 : specSimultaneousSubst 0 s rest =
          s.take (m.offset + m.length) ++
            specSimultaneousSubst (m.offset + m.length) (s.drop (m.offset + m.length)) rest := by
        have hh : ∀ x ∈ rest, 0 + (s.take (m.offset + m.length)).length ≤ x.offset := by
          intro x hx
          have := hofs x hx
          omega
        have := specSubst_append rest (s.take (m.offset + m.length))
          (s.drop (m.offset + m.length)) 0 hh
        rw [List.take_append_drop] at this
        rw [this, hlen2, Nat.zero_add]
      have htake : (specSimultaneousSubst 0 s rest).take m.offset = s.take m.offset := by
        calc (specSimultaneousSubst 0 s rest).take m.offset
            = (s.take m.offset ++
                specSimultaneousSubst m.offset (s.drop m.offset) rest).take
                ((s.take m.offset).length) := by rw [hd1, hlen1]
          _ = s.take m.offset := List.take_left _ _
      have hdrop : (specSimultaneousSubst 0 s rest).drop (m.offset + m.length) =
          specSimultaneousSubst (m.offset + m.length) (s.drop (m.offset + m.length)) rest := by
        calc (specSimultaneousSubst 0 s rest).drop (m.offset + m.length)
            = (s.take (m.offset + m.length) ++
                specSimultaneousSubst (m.offset + m.length)
                  (s.drop (m.offset + m.length)) rest).drop
                ((s.take (m.offset + m.length)).length) := by rw [hd2, hlen2]
          _ = _ := List.drop_left _ _
      simp only [spliceMatch, hr, specSimultaneousSubst]
      rw [htake, hdrop, Nat.sub_zero, Nat.sub_zero]

/-- C9: when the proofreading service flags separated, in-bounds spans, the
corrected rewrite built by `check_text` — processing the spans back to
front by offset and substituting the top-ranked replacement of each span
that has candidates — equals the simultaneous substitution of those
top-ranked replacements at the spans' original offsets: the back-to-front
order means earlier edits never invalidate the offsets of spans processed
later. -/
theorem check_text_corrected_is_simultaneous (text : String) (ms : List LTMatch)
    (h : spansSeparated 0 text.toList.length ms = true) :
    (check_text (.success ms) text).corrected_text =
      (specSimultaneousSubst 0 text.toList ms).asString := by
  show (applyMatchesDesc text.toList (sortByOffsetDesc ms)).asString = _
  rw [sortByOffsetDesc_of_separated ms 0 text.toList.length h,
    applyDesc_reverse_eq_spec ms text.toList h]

/-- A flagged span `has` (offset 2, length 3) with top replacement
`have`. -/
def mW1 : LTMatch := ⟨"msg", "short", 2, 3, "R", "G", ["have"], "ctx"⟩

/-- A flagged span `went` (offset 6, length 4) with top replacement
`gone`. -/
def mW2 : LTMatch := ⟨"m2", "s2", 6, 4, "R", "G", ["gone", "x"], "ctx"⟩

/-- Witness for C9: two flagged spans in `I has went to x`; the
back-to-front rewrite agrees with the simultaneous substitution. -/
theorem check_text_corrected_is_simultaneous_witness :
    spansSeparated 0 ("I has went to x".toList.length) [mW1, mW2] = true ∧
    (check_text (.success [mW1, mW2]) "I has went to x").corrected_text =
      (specSimultaneousSubst 0 "I has went to x".toList [mW1, mW2]).asString :=
  ⟨by decide,
    check_text_corrected_is_simultaneous "I has went to x" [mW1, mW2] (by decide)⟩

end AzureJay
